import Mathlib

/-!
# Verification of the LitFinder federated search and ranking core

Shallow embedding of the search orchestration / ranking pipeline of the
`litfinder` backend:

* `app/services/ranking_service.py`  (`RankingService`, `WEIGHTS`)
* `app/services/search_service.py`   (`SearchService.search`, `_search_openalex`,
  `_search_cyberleninka`)
* `app/integrations/openalex.py`     (`OpenAlexClient.search_works`,
  `work_to_article_dict`)
* `app/integrations/cyberleninka.py` (`CyberLeninkaClient.search`,
  `article_to_dict`)
* `app/services/cache_service.py`    (`hash_query`, cache read/write entry points)

Modelling conventions:

* Python `float` arithmetic is idealised over `ℚ` where the source only uses
  field operations, and over `ℝ` where it uses `math.log1p` (the citation
  signal); `round(x, 4)` is modelled as rounding of `x * 10^4` to an integer.
* Python strings are `String`; `str.lower` is `Char.toLower` mapped over the
  characters, the substring test `w in s` is `List.IsInfix` on the character
  lists, and `str.split()` is "split on whitespace, drop empty pieces".
* Network / cache effects are passed in explicitly: each remote call's outcome
  is a value of an `Except`/`Option` type supplied by a `SearchEnv`, and the
  orchestrator returns, next to its response, the list of cache operations it
  performed (`CacheOp`), so "the cache is never read/written" is a statement
  about that trace.
* `asyncio.gather(..., return_exceptions=True)` yields, per task, either the
  task's value or the exception it raised; this is the `Except String` layer
  around each adapter outcome.
-/

namespace LitFinder

/-! ## Python string primitives -/

/-- `s.lower()` as a list of characters. -/
def lowerChars (s : String) : List Char := s.data.map Char.toLower

/-- Python `str.split()` (no argument): split on runs of whitespace and drop
the empty pieces. -/
def pySplit (l : List Char) : List (List Char) :=
  (l.splitOnP Char.isWhitespace).filter (fun w => !w.isEmpty)

/-- Python renders `None` as the string `"None"` inside an f-string
(`f"{title} {abstract}"` with `abstract = None`). -/
def pyStr : Option String → String
  | none => "None"
  | some s => s

/-- The substring test `w in s` of Python, on character lists. -/
def isSub (w text : List Char) : Bool := decide (w <:+: text)

/-- The query tokens `_compute_keyword_match` scores
(ranking_service.py:137-138): lowercased, whitespace-split, deduplicated
(`set(...)`), keeping only tokens of length `> 2`. -/
def queryTokens (query : String) : List (List Char) :=
  ((pySplit (lowerChars query)).dedup).filter (fun w => 2 < w.length)

/-! ## Ranking signals (`app/services/ranking_service.py`) -/

/-- `RankingService._compute_keyword_match` (ranking_service.py:130-155).

The query is lowercased and whitespace-split; tokens of length `≤ 2` are
dropped and duplicates removed (`set(...)`).  If no token remains the score is
`0.5`.  Otherwise the score is the fraction of tokens occurring in
`f"{title} {abstract}".lower()` plus `0.3` times the fraction occurring in
`title.lower()`, clamped to `1.0`.  `abstract` may be Python `None` (the
adapters store `"abstract": None` for records without one), which an f-string
renders as `"None"`. -/
def computeKeywordMatch (query title : String) (abstract : Option String) : ℚ :=
  let queryWords := queryTokens query
  if queryWords = [] then 1/2
  else
    let text := lowerChars (title ++ " " ++ pyStr abstract)
    let titleLower := lowerChars title
    let numMatches := (queryWords.filter (fun w => isSub w text)).length
    let titleMatches := (queryWords.filter (fun w => isSub w titleLower)).length
    let baseScore : ℚ := (numMatches : ℚ) / (queryWords.length : ℚ)
    let titleBonus : ℚ := ((titleMatches : ℚ) / (queryWords.length : ℚ)) * (3/10)
    min (baseScore + titleBonus) 1

/-- `RankingService._normalize_citations` (ranking_service.py:157-166):
`log1p(citations) / log1p(max_citations)` when positive, with guards. -/
noncomputable def normalizeCitations (citations maxCitations : ℤ) : ℝ :=
  if citations ≤ 0 then 0
  else
    let logCitations := Real.log (1 + (citations : ℝ))
    let logMax := Real.log (1 + (maxCitations : ℝ))
    if 0 < logMax then logCitations / logMax else 0

/-- `RankingService._compute_recency` (ranking_service.py:168-188).
`current_year` (from `datetime.now()`) is an explicit parameter.  Python's
`if not year:` also treats the value `0` as "unknown". -/
def computeRecency (year : Option ℤ) (currentYear : ℤ) : ℚ :=
  match year with
  | none => 3/10
  | some y =>
    if y = 0 then 3/10
    else
      let age := currentYear - y
      if age < 0 then 1
      else if age = 0 then 1
      else if age ≤ 2 then 9/10
      else if age ≤ 5 then 7/10
      else if age ≤ 10 then 1/2
      else max (1/10) (1/2 - ((age : ℚ) - 10) * (2/100))

/-- `RankingService._source_quality_score` (ranking_service.py:190-199). -/
def sourceQualityScore (source : String) : ℚ :=
  let s := source.toLower
  if s = "openalex" then 9/10
  else if s = "cyberleninka" then 8/10
  else if s = "crossref" then 85/100
  else if s = "pubmed" then 95/100
  else if s = "arxiv" then 7/10
  else 1/2

/-! ## The canonical article record

The dict shape produced by `work_to_article_dict` / `article_to_dict` and
consumed by `RankingService.rank_results`.  Pure pass-through fields that no
modelled code path reads (`authors`, `journal_name`, `volume`, `issue`,
`pages`, `doi`, `pdf_url`, `concepts`) are omitted.  `relevance_score` is the
source-assigned prior (`0.9` for OpenAlex, `0.8` for CyberLeninka) used as the
semantic-similarity fallback; ranking overwrites it with the composite score,
modelled by the separate `RankedArticle` type. -/
structure Article where
  source : String
  external_id : String
  title : String
  abstract : Option String
  year : Option ℤ
  cited_by_count : ℤ
  open_access : Bool
  language : String
  relevance_score : Option ℚ
  deriving DecidableEq, Inhabited

/-- The per-candidate signal breakdown stored as `result["ranking_signals"]`
(keys of `WEIGHTS`, ranking_service.py:13-21). -/
structure RankingSignals where
  semantic_similarity : ℝ
  keyword_match : ℝ
  citation_score : ℝ
  recency_score : ℝ
  open_access : ℝ
  source_quality : ℝ
  language_match : ℝ
  deriving Inhabited

/-- `sum(scores.get(signal, 0) * weight for signal, weight in WEIGHTS.items())`
with the fixed weight table `WEIGHTS` (ranking_service.py:13-21,96-99); every
key of `WEIGHTS` is present in `scores`. -/
noncomputable def weightedSum (s : RankingSignals) : ℝ :=
  s.semantic_similarity * (35/100) + s.keyword_match * (20/100) +
  s.citation_score * (15/100) + s.recency_score * (10/100) +
  s.open_access * (5/100) + s.source_quality * (10/100) +
  s.language_match * (5/100)

/-- Python `round(x, 4)` idealised: round `x·10⁴` to an integer and divide
back.  (Python rounds ties to even, Lean's `round` rounds ties up; no claim
depends on the tie direction.) -/
noncomputable def round4 (x : ℝ) : ℝ := ((round (x * 10000) : ℤ) : ℝ) / 10000

/-- `max(r.get("cited_by_count", 0) for r in results) or 1`
(ranking_service.py:58).  Python's `or` replaces only the falsy value `0`;
`max()` of the empty sequence would raise, but `rank_results` only evaluates
this on a non-empty batch. -/
def maxCitationsOf (results : List Article) : ℤ :=
  match results.map (fun r => r.cited_by_count) with
  | [] => 1
  | c :: cs => let m := cs.foldl max c; if m = 0 then 1 else m

/-- The seven signals of one candidate (ranking_service.py:60-93).

`rank_results` also accepts an optional `query_embedding`; its only caller in
the repository (`SearchService.search`, search_service.py:105-109) never
supplies one and no adapter attaches an `"embedding"` key to a result dict, so
`result.get("embedding")` is always falsy and the semantic-similarity signal
always takes the fallback branch `result.get("relevance_score", 0.5)`
(ranking_service.py:64-69); the dead floating-point cosine branch is not
modelled. -/
noncomputable def scoreSignals (query preferredLanguage : String)
    (maxCitations currentYear : ℤ) (a : Article) : RankingSignals :=
  { semantic_similarity := ((a.relevance_score.getD (1/2) : ℚ) : ℝ)
    keyword_match := ((computeKeywordMatch query a.title a.abstract : ℚ) : ℝ)
    citation_score := normalizeCitations a.cited_by_count maxCitations
    recency_score := ((computeRecency a.year currentYear : ℚ) : ℝ)
    open_access := if a.open_access then 1 else 0
    source_quality := ((sourceQualityScore a.source : ℚ) : ℝ)
    language_match := if a.language = preferredLanguage then 1 else 1/2 }

/-- A result dict after ranking: the original fields, the stored breakdown
`result["ranking_signals"]`, and the overwritten `result["relevance_score"]`. -/
structure RankedArticle where
  article : Article
  ranking_signals : RankingSignals
  relevance_score : ℝ
  deriving Inhabited

/-- Scoring of one candidate inside the `for result in results:` loop
(ranking_service.py:60-104): compute the breakdown, then store the weighted
sum rounded to 4 decimals. -/
noncomputable def scoreArticle (query preferredLanguage : String)
    (maxCitations currentYear : ℤ) (a : Article) : RankedArticle :=
  let scores := scoreSignals query preferredLanguage maxCitations currentYear a
  { article := a
    ranking_signals := scores
    relevance_score := round4 (weightedSum scores) }

open scoped Classical in
/-- `RankingService.rank_results` (ranking_service.py:32-109): empty batch
short-circuit, batch-level `max_citations`, per-candidate scoring, then
`scored_results.sort(key=lambda x: x["relevance_score"], reverse=True)` — a
stable descending sort by the rounded score. -/
noncomputable def rankResults (results : List Article) (query : String)
    (preferredLanguage : String) (currentYear : ℤ) : List RankedArticle :=
  if results.isEmpty then []
  else
    let maxCitations := maxCitationsOf results
    let scored := results.map
      (scoreArticle query preferredLanguage maxCitations currentYear)
    scored.mergeSort (fun a b => decide (b.relevance_score ≤ a.relevance_score))

/-! ## Python `or` on optional strings -/

/-- Python `a or d` for an optional string: both `None` and `""` are falsy. -/
def pyOrStr (a : Option String) (d : String) : String :=
  match a with
  | none => d
  | some s => if s = "" then d else s

/-! ## CyberLeninka adapter (`app/integrations/cyberleninka.py`) -/

/-- The `CyberLeninkaArticle` pydantic model (cyberleninka.py:34-47),
restricted to the fields some modelled code path reads; the unread metadata
fields (`publisher`, `type`, `format`, `rights`) and the journal-name `source`
are omitted. -/
structure CLArticle where
  identifier : String
  title : Option String
  creators : List String
  subjects : List String
  description : Option String
  date : Option String
  language : Option String
  deriving DecidableEq, Inhabited

/-- `CyberLeninkaArticle.get_year` (cyberleninka.py:49-57): `int(date[:4])`,
`None` on a falsy date or a parse failure. -/
def clGetYear (date : Option String) : Option ℤ :=
  match date with
  | none => none
  | some d => (String.mk (d.data.take 4)).toInt?

/-- The concatenated searchable text of one record (cyberleninka.py:238-243):
`" ".join([title or "", description or "", " ".join(subjects),
" ".join(creators)]).lower()`. -/
def clSearchable (a : CLArticle) : List Char :=
  lowerChars (String.intercalate " "
    [a.title.getD "", a.description.getD "",
     String.intercalate " " a.subjects, String.intercalate " " a.creators])

/-- The harvesting loop of `CyberLeninkaClient.search`
(cyberleninka.py:232-248): walk the records in harvest order, skip records
`_parse_record` rejected (`None`), keep those whose searchable text contains
the lowercased query, and `break` as soon as `len(articles) >= limit` after an
append.  `acc` is the `articles` list built so far. -/
def clCollect (queryLower : List Char) (limit : ℤ) (acc : List CLArticle) :
    List (Option CLArticle) → List CLArticle
  | [] => acc
  | none :: rest => clCollect queryLower limit acc rest
  | some a :: rest =>
    if isSub queryLower (clSearchable a) then
      let acc' := acc ++ [a]
      if limit ≤ (acc'.length : ℤ) then acc'
      else clCollect queryLower limit acc' rest
    else clCollect queryLower limit acc rest

/-- Result shape of `CyberLeninkaClient.search`: `{"total": ..., "results": ...}`. -/
structure CLSearchResult where
  total : ℤ
  results : List CLArticle
  deriving DecidableEq, Inhabited

/-- `CyberLeninkaClient.search` (cyberleninka.py:186-253) downstream of the
network: `raw` is the outcome of `self._request(params)` — `none` when the
request failed after retries, hit an OAI-PMH error or unparsable XML (all of
which `_request` turns into `None`), otherwise the per-record parse outcomes
of `_parse_record` over the harvested `<record>` elements in order.  `total`
is `len(articles)`. -/
def clSearch (query : String) (limit : ℤ)
    (raw : Option (List (Option CLArticle))) : CLSearchResult :=
  match raw with
  | none => { total := 0, results := [] }
  | some records =>
    let articles := clCollect (lowerChars query) limit [] records
    { total := articles.length, results := articles }

/-- `article_to_dict` (cyberleninka.py:296-315), restricted to the modelled
`Article` fields. -/
def clArticleToDict (a : CLArticle) : Article :=
  { source := "cyberleninka"
    external_id := a.identifier.replace "oai:cyberleninka.ru:" ""
    title := a.title.getD ""
    abstract := a.description
    year := clGetYear a.date
    cited_by_count := 0
    open_access := true
    language := pyOrStr a.language "ru"
    relevance_score := none }

/-! ## OpenAlex adapter (`app/integrations/openalex.py`) -/

/-- The `OpenAlexWork` pydantic model (openalex.py:64-84), restricted to the
fields some modelled code path reads (`doi`, `authorships`,
`primary_location`, `best_oa_location`, `concepts`, `biblio` are pass-through
for the omitted `Article` fields).  `abstract_inverted_index` is the
`{word: [positions]}` map in JSON key order; `open_access` is the optional
`{is_oa, ...}` dict, of which only an optional `is_oa` entry is read. -/
structure OpenAlexWork where
  id : String
  title : Option String
  display_name : Option String
  publication_year : Option ℤ
  abstract_inverted_index : Option (List (String × List ℕ))
  cited_by_count : ℤ
  open_access : Option (Option Bool)
  deriving DecidableEq, Inhabited

/-- `OpenAlexWork.get_abstract` (openalex.py:86-98): flatten the inverted
index into `(position, word)` pairs, stable-sort by position, join with
spaces.  `if not self.abstract_inverted_index:` treats both `None` and the
empty dict as missing. -/
def getAbstract (w : OpenAlexWork) : Option String :=
  match w.abstract_inverted_index with
  | none => none
  | some [] => none
  | some idx =>
    let words := idx.flatMap (fun p => p.2.map (fun pos => (pos, p.1)))
    let sorted := words.mergeSort (fun a b => decide (a.1 ≤ b.1))
    some (String.intercalate " " (sorted.map (fun p => p.2)))

/-- `work_to_article_dict` (openalex.py:405-457), restricted to the modelled
`Article` fields.  The language is hardcoded `"en"` (openalex.py:456). -/
def workToArticleDict (w : OpenAlexWork) : Article :=
  { source := "openalex"
    external_id := w.id.replace "https://openalex.org/" ""
    title := pyOrStr w.display_name (pyOrStr w.title "")
    abstract := getAbstract w
    year := w.publication_year
    cited_by_count := w.cited_by_count
    open_access := (w.open_access.join).getD false
    language := "en"
    relevance_score := none }

/-- The raw JSON body of a successful `GET /works` call, as consumed by
`OpenAlexClient.search_works` (openalex.py:345-368): the optional
`meta.count`, the `next_cursor` key of `meta` if present (its value may be
JSON `null`, hence `Option (Option String)`), and one entry per element of
`results` — `some w` when `OpenAlexWork(**item)` validates, `none` when
pydantic rejects the item. -/
structure OARawResponse where
  meta_count : Option ℤ
  meta_next_cursor : Option (Option String)
  items : List (Option OpenAlexWork)
  deriving DecidableEq, Inhabited

/-- Return shape of `OpenAlexClient.search_works`: `meta`, parsed `results`,
and `next_cursor` when `meta` carried one. -/
structure OASearchResult where
  meta_count : Option ℤ
  results : List OpenAlexWork
  next_cursor : Option (Option String)
  deriving DecidableEq, Inhabited

/-- `OpenAlexClient.search_works` (openalex.py:242-368) downstream of the
network: `raw` is the outcome of `self._request("/works", params)` — an
exception when retries were exhausted or a client error occurred (`_request`
re-raises, openalex.py:201-240), which `search_works` propagates.  Malformed
individual works are skipped (openalex.py:349-355).  When `meta` carries
`next_cursor: null` (the exhausted last page of cursor pagination), the
`logger.debug` f-string at openalex.py:366 evaluates
`response["next_cursor"][:20]` on `None` and raises `TypeError`, which also
propagates to the caller.  The query/filter parameter building
(openalex.py:282-343) only shapes the request and is part of the
environment. -/
def searchWorks (raw : Except String OARawResponse) :
    Except String OASearchResult :=
  match raw with
  | .error e => .error e
  | .ok r =>
    match r.meta_next_cursor with
    | some none => .error "TypeError"
    | _ =>
      .ok { meta_count := r.meta_count
            results := r.items.filterMap id
            next_cursor := r.meta_next_cursor }

/-! ## Partial results and the orchestrator (`app/services/search_service.py`) -/

/-- One adapter's contribution: `{"total": ..., "results": ...}`, plus a
`next_cursor` key when `_search_openalex` copied one over
(search_service.py:177-179); the outer `Option` is key presence, the inner
value may be Python `None`. -/
structure PartialResult where
  total : ℤ
  results : List Article
  next_cursor : Option (Option String) := none
  deriving DecidableEq, Inhabited

/-- `SearchService._search_openalex` (search_service.py:127-185): call
`search_works`, attach the `0.9` source prior to every article, take the
total from `meta.get("count", 0)`; any exception degrades to
`{"total": 0, "results": []}` (search_service.py:183-185).  The
page-number/cursor choice (search_service.py:143-149) only shapes the request
and is part of the environment. -/
def searchOpenalex (outcome : Except String OARawResponse) : PartialResult :=
  match searchWorks outcome with
  | .error _ => { total := 0, results := [], next_cursor := none }
  | .ok res =>
    { total := res.meta_count.getD 0
      results := res.results.map
        (fun w => { workToArticleDict w with relevance_score := some (9/10) })
      next_cursor := res.next_cursor }

/-- `SearchService._search_cyberleninka` (search_service.py:187-220): call the
client, attach the `0.8` source prior, forward the client's total; any
exception (e.g. a connection error the client's `_request` does not catch)
degrades to `{"total": 0, "results": []}` (search_service.py:218-220).  The
`year_from`/`year_to` → date-string conversion only shapes the request and is
part of the environment. -/
def searchCyberleninka (query : String) (limit : ℤ)
    (outcome : Except String (Option (List (Option CLArticle)))) :
    PartialResult :=
  match outcome with
  | .error _ => { total := 0, results := [], next_cursor := none }
  | .ok raw =>
    let clResults := clSearch query limit raw
    { total := clResults.total
      results := clResults.results.map
        (fun a => { clArticleToDict a with relevance_score := some (8/10) })
      next_cursor := none }

/-- The keyword arguments of `SearchService.search` (search_service.py:24-39). -/
structure SearchParams where
  query : String
  limit : ℕ := 20
  offset : ℕ := 0
  cursor : Option String := none
  year_from : Option ℤ := none
  year_to : Option ℤ := none
  language : Option (List String) := none
  cited_by_count_min : Option ℤ := none
  cited_by_count_max : Option ℤ := none
  is_oa : Option Bool := none
  publication_type : Option String := none
  sources : Option (List String) := none
  use_cache : Bool := true
  deriving DecidableEq, Inhabited

/-- The response dict assembled by `SearchService.search`
(search_service.py:113-119); the wall-clock `execution_time_ms` field is not
modelled. -/
structure SearchResponse where
  total : ℤ
  results : List RankedArticle
  next_cursor : Option String
  from_cache : Bool

/-- Everything the outside world feeds one `search` request: the outcome of
each adapter task as observed at the `asyncio.gather(...,
return_exceptions=True)` join (outer `Except`: the exception a task itself
raised, caught at search_service.py:93-95; inner value: the outcome of that
adapter's remote call, as consumed by `searchOpenalex` /
`searchCyberleninka`), the cache contents, and the current year used by the
recency signal. -/
structure SearchEnv where
  oaGather : Except String (Except String OARawResponse)
  clGather : Except String (Except String (Option (List (Option CLArticle))))
  cache : String → Option SearchResponse
  currentYear : ℤ

/-! ### Cache key (`hash_query`, cache_service.py:193-206)

`hash_query` lowercases and strips the query, appends
`json.dumps(filters, sort_keys=True)` (the filters dict of
search_service.py:49-60 is never empty, so the append always happens) and
returns `md5(...)[:16]`.  The md5 digest is replaced here by its pre-image
serialization (keys in the sorted order json.dumps produces); no claim
depends on the key's format, only on which keys are read and written. -/

/-- JSON rendering of an optional integer. -/
def jsonOptInt : Option ℤ → String
  | none => "null"
  | some n => toString n

/-- JSON rendering of an optional boolean. -/
def jsonOptBool : Option Bool → String
  | none => "null"
  | some true => "true"
  | some false => "false"

/-- JSON rendering of an optional string. -/
def jsonOptStr : Option String → String
  | none => "null"
  | some s => "\"" ++ s ++ "\""

/-- JSON rendering of an optional string list. -/
def jsonOptStrList : Option (List String) → String
  | none => "null"
  | some l => "[" ++ String.intercalate ", " (l.map (fun s => "\"" ++ s ++ "\"")) ++ "]"

/-- `hash_query(query, {...})` as called at search_service.py:49-60. -/
def hashQuery (p : SearchParams) : String :=
  p.query.toLower.trim ++ ":\x7b" ++
    "\"cited_by_count_max\": " ++ jsonOptInt p.cited_by_count_max ++ ", " ++
    "\"cited_by_count_min\": " ++ jsonOptInt p.cited_by_count_min ++ ", " ++
    "\"is_oa\": " ++ jsonOptBool p.is_oa ++ ", " ++
    "\"language\": " ++ jsonOptStrList p.language ++ ", " ++
    "\"limit\": " ++ toString p.limit ++ ", " ++
    "\"offset\": " ++ toString p.offset ++ ", " ++
    "\"publication_type\": " ++ jsonOptStr p.publication_type ++ ", " ++
    "\"sources\": " ++ jsonOptStrList p.sources ++ ", " ++
    "\"year_from\": " ++ jsonOptInt p.year_from ++ ", " ++
    "\"year_to\": " ++ jsonOptInt p.year_to ++ "\x7d"

/-- One cache side effect of the search path: a call to
`cache_service.get_search_results` or `cache_service.set_search_results`. -/
inductive CacheOp where
  | get (key : String)
  | set (key : String) (value : SearchResponse)

/-- `search_sources = sources or ["openalex", "cyberleninka"]`
(search_service.py:73): Python `or` also replaces an empty list. -/
def searchSources (p : SearchParams) : List String :=
  match p.sources with
  | none => ["openalex", "cyberleninka"]
  | some s => if s = [] then ["openalex", "cyberleninka"] else s

/-- The outcome of the `_search_openalex` task as gathered. -/
def oaTask (p : SearchParams) (env : SearchEnv) : Except String PartialResult :=
  let _ := p
  env.oaGather.map searchOpenalex

/-- The outcome of the `_search_cyberleninka` task as gathered. -/
def clTask (p : SearchParams) (env : SearchEnv) : Except String PartialResult :=
  env.clGather.map (searchCyberleninka p.query (p.limit : ℤ))

/-- The `tasks` list in gather order (search_service.py:76-90): OpenAlex
first when selected, then CyberLeninka when selected. -/
def taskResults (p : SearchParams) (env : SearchEnv) :
    List (Except String PartialResult) :=
  (if "openalex" ∈ searchSources p then [oaTask p env] else []) ++
  (if "cyberleninka" ∈ searchSources p then [clTask p env] else [])

/-- `res.get("next_cursor")` truthiness: the key must be present, its value
non-`None` and non-empty. -/
def cursorTruthy : Option (Option String) → Option String
  | some (some s) => if s = "" then none else some s
  | _ => none

/-- One iteration of the merge loop over the gathered outcomes
(search_service.py:92-101): an exception is logged and skipped, otherwise the
results are concatenated, the totals summed, and the first truthy
`next_cursor` captured.  (`if res:` on the adapters' non-empty dicts is
always true.) -/
def mergeStep (acc : ℤ × List Article × Option String)
    (res : Except String PartialResult) : ℤ × List Article × Option String :=
  match res with
  | .error _ => acc
  | .ok r =>
    (acc.1 + r.total, acc.2.1 ++ r.results,
      match acc.2.2 with
      | some c => some c
      | none => cursorTruthy r.next_cursor)

/-- The merge loop (search_service.py:92-101), starting from
`results = []`, `total = 0`, `next_cursor = None` (search_service.py:68-70). -/
def mergeOutcomes (outs : List (Except String PartialResult)) :
    ℤ × List Article × Option String :=
  outs.foldl mergeStep (0, [], none)

/-- The summed `total` of one request's fan-out. -/
def mergedTotal (p : SearchParams) (env : SearchEnv) : ℤ :=
  (mergeOutcomes (taskResults p env)).1

/-- The concatenated (not deduplicated) merged result list of one request's
fan-out. -/
def mergedArticles (p : SearchParams) (env : SearchEnv) : List Article :=
  (mergeOutcomes (taskResults p env)).2.1

/-- The surfaced `next_cursor` of one request's fan-out. -/
def mergedCursor (p : SearchParams) (env : SearchEnv) : Option String :=
  (mergeOutcomes (taskResults p env)).2.2

/-- `preferred_language=language[0] if language else "en"`
(search_service.py:108). -/
def preferredLanguage (p : SearchParams) : String :=
  match p.language with
  | some (l :: _) => l
  | _ => "en"

/-- The ranked full merged list (before `[:limit]` truncation), i.e. the
`results` variable after search_service.py:104-109; `rank_results` already
maps the empty list to itself. -/
noncomputable def rankedList (p : SearchParams) (env : SearchEnv) :
    List RankedArticle :=
  rankResults (mergedArticles p env) p.query (preferredLanguage p)
    env.currentYear

/-- The freshly assembled response dict (search_service.py:113-119). -/
noncomputable def freshResponse (p : SearchParams) (env : SearchEnv) :
    SearchResponse :=
  { total := mergedTotal p env
    results := (rankedList p env).take p.limit
    next_cursor := mergedCursor p env
    from_cache := false }

/-- Python's `not cursor` (search_service.py:48,122): a cursor is falsy when
it is `None` or the empty string. -/
def cursorFalsy : Option String → Bool
  | none => true
  | some s => s.isEmpty

/-- `SearchService.search` (search_service.py:24-125) together with the trace
of cache operations it performs.

* Cache read (`get_search_results`) only when `use_cache and not cursor`
  (search_service.py:48-66) — `not cursor` is also true for the reachable
  empty-string cursor; a hit is returned with `from_cache = True`.
* On a miss (or with the cache bypassed) the fan-out/merge/rank path builds
  the fresh response.
* Cache write (`set_search_results`) only when `use_cache and results and not
  cursor` (search_service.py:121-123), `results` being the full ranked list
  (truthy iff non-empty). -/
noncomputable def search (p : SearchParams) (env : SearchEnv) :
    SearchResponse × List CacheOp :=
  let key := hashQuery p
  if p.use_cache && cursorFalsy p.cursor then
    match env.cache key with
    | some cached => ({ cached with from_cache := true }, [CacheOp.get key])
    | none =>
      let response := freshResponse p env
      if (rankedList p env).isEmpty then (response, [CacheOp.get key])
      else (response, [CacheOp.get key, CacheOp.set key response])
  else
    (freshResponse p env, [])

/-! ## Derived notions used by the statements -/

/-- The client-side match predicate of `CyberLeninkaClient.search`
(cyberleninka.py:237-245): the lowercased query occurs in the record's
concatenated searchable text. -/
def clMatches (query : String) (a : CLArticle) : Bool :=
  isSub (lowerChars query) (clSearchable a)

/-- The contribution of one gathered task outcome to `total`: an exception
contributes `0`. -/
def exceptTotal : Except String PartialResult → ℤ
  | .error _ => 0
  | .ok r => r.total

/-- The contribution of one gathered task outcome to the merged result list:
an exception contributes nothing. -/
def exceptArticles : Except String PartialResult → List Article
  | .error _ => []
  | .ok r => r.results

/-! # Theorems -/

/-! ## C10: queries without tokens longer than 2 characters -/

/-- C10: for every query in which no whitespace-separated token has length
greater than 2, the `keyword_match` signal equals exactly `0.5` for every
candidate, regardless of the candidate's title or abstract content. -/
theorem c10_short_query_keyword_match (query title : String)
    (abstract : Option String)
    (h : ∀ w ∈ pySplit (lowerChars query), w.length ≤ 2) :
    computeKeywordMatch query title abstract = 1/2 := by
  have hnil : queryTokens query = [] := by
    refine List.filter_eq_nil_iff.mpr ?_
    intro w hw
    have hmem : w ∈ pySplit (lowerChars query) := List.mem_dedup.mp hw
    simpa using h w hmem
  simp [computeKeywordMatch, hnil]

/-- Witness for C10 at a concrete short query. -/
theorem c10_short_query_keyword_match_witness :
    computeKeywordMatch "ai ml" "Deep Learning for AI" (some "ml survey") = 1/2 :=
  c10_short_query_keyword_match "ai ml" "Deep Learning for AI"
    (some "ml survey") (by decide)

/-! ## C7: all long query tokens in the title -/

/-- C7 as frozen is refuted by a query with no token of length `> 2`: every
(of the zero) long tokens occurs in the title, yet the signal is `0.5`, not
`1.0`, because `_compute_keyword_match` returns early
(ranking_service.py:140-141). -/
theorem c7_counterexample :
    (∀ w ∈ queryTokens "ab", w <:+: lowerChars "xyz") ∧
      computeKeywordMatch "ab" "xyz" none ≠ 1 := by
  refine ⟨by decide, ?_⟩
  have h12 : computeKeywordMatch "ab" "xyz" none = 1/2 := rfl
  rw [h12]
  norm_num

/-- C7 (amended): if the query has at least one token of length greater
than 2 and every such token occurs (as a substring) in the lowercased title,
then the `keyword_match` signal equals exactly `1.0`: the base fraction plus
the title bonus is clamped to `1.0`. -/
theorem c7_title_tokens_give_full_keyword_match (query title : String)
    (abstract : Option String) (hne : queryTokens query ≠ [])
    (h : ∀ w ∈ queryTokens query, w <:+: lowerChars title) :
    computeKeywordMatch query title abstract = 1 := by
  have hlen : (0 : ℚ) < (queryTokens query).length := by
    exact_mod_cast List.length_pos.mpr hne
  have htext : ∀ w ∈ queryTokens query,
      w <:+: lowerChars (title ++ " " ++ pyStr abstract) := by
    intro w hw
    have h1 : w <:+: lowerChars title := h w hw
    have h2 : lowerChars title <+:
        lowerChars (title ++ " " ++ pyStr abstract) := by
      have : lowerChars (title ++ " " ++ pyStr abstract) =
          lowerChars title ++ lowerChars (" " ++ pyStr abstract) := by
        simp [lowerChars]
      rw [this]
      exact List.prefix_append _ _
    exact h1.trans h2.isInfix
  have hfull : (queryTokens query).filter
      (fun w => isSub w (lowerChars (title ++ " " ++ pyStr abstract))) =
      queryTokens query := by
    refine List.filter_eq_self.mpr ?_
    intro w hw
    exact decide_eq_true (htext w hw)
  have hfullTitle : (queryTokens query).filter
      (fun w => isSub w (lowerChars title)) = queryTokens query := by
    refine List.filter_eq_self.mpr ?_
    intro w hw
    exact decide_eq_true (h w hw)
  have hdiv : ((queryTokens query).length : ℚ) /
      ((queryTokens query).length : ℚ) = 1 := div_self (ne_of_gt hlen)
  simp only [computeKeywordMatch, if_neg hne, isSub] at *
  rw [hfull, hfullTitle, hdiv]
  norm_num

/-- Witness for the amended C7 at a concrete query and title. -/
theorem c7_title_tokens_give_full_keyword_match_witness :
    computeKeywordMatch "machine learning" "Machine Learning Basics"
      (some "an abstract") = 1 :=
  c7_title_tokens_give_full_keyword_match "machine learning"
    "Machine Learning Basics" (some "an abstract") (by decide) (by decide)

/-! ## Helper lemmas about the merge fold and ranking -/

/-- The first component of the merge fold is the accumulated total plus each
outcome's contribution (an exception contributing `0`). -/
theorem foldl_mergeStep_total (outs : List (Except String PartialResult)) :
    ∀ acc : ℤ × List Article × Option String,
      (outs.foldl mergeStep acc).1 = acc.1 + (outs.map exceptTotal).sum := by
  induction outs with
  | nil => intro acc; simp
  | cons res rest ih =>
    intro acc
    cases res with
    | error e => simp [mergeStep, ih, exceptTotal]
    | ok r => simp [mergeStep, ih, exceptTotal]; ring

/-- The second component of the merge fold is the accumulated list followed
by each outcome's contribution (an exception contributing nothing). -/
theorem foldl_mergeStep_articles (outs : List (Except String PartialResult)) :
    ∀ acc : ℤ × List Article × Option String,
      (outs.foldl mergeStep acc).2.1 =
        acc.2.1 ++ outs.flatMap exceptArticles := by
  induction outs with
  | nil => intro acc; simp
  | cons res rest ih =>
    intro acc
    cases res with
    | error e => simp [mergeStep, ih, exceptArticles]
    | ok r => simp [mergeStep, ih, exceptArticles]

/-- `rank_results` returns one scored candidate per input candidate. -/
theorem length_rankResults (results : List Article) (query lang : String)
    (currentYear : ℤ) :
    (rankResults results query lang currentYear).length = results.length := by
  unfold rankResults
  cases h : results.isEmpty with
  | true => simp [List.isEmpty_iff.mp h]
  | false => simp

/-- `rank_results` of the empty batch is empty (ranking_service.py:51-52). -/
theorem rankResults_nil (query lang : String) (currentYear : ℤ) :
    rankResults [] query lang currentYear = [] := rfl

/-- On the fan-out path (`use_cache` false, a truthy — non-null, non-empty —
cursor, or a cache miss) the returned response is the freshly assembled
one. -/
theorem search_response_of_fanout (p : SearchParams) (env : SearchEnv)
    (h : p.use_cache = false ∨ cursorFalsy p.cursor = false ∨
      env.cache (hashQuery p) = none) :
    (search p env).1 = freshResponse p env := by
  cases hcond : (p.use_cache && cursorFalsy p.cursor) with
  | true =>
    have hcache : env.cache (hashQuery p) = none := by
      rcases h with h1 | h2 | h3
      · rw [h1] at hcond; simp at hcond
      · rw [h2] at hcond; simp at hcond
      · exact h3
    cases hrank : (rankedList p env).isEmpty with
    | true => simp [search, hcond, hcache, hrank]
    | false => simp [search, hcond, hcache, hrank]
  | false => simp [search, hcond]

/-! ## C3: cursor requests and the cache -/

/-- C3 as frozen is refuted by the reachable empty-string cursor: `""` is a
non-null cursor, but Python's `not cursor` (search_service.py:48) is true for
it, so `get_search_results` is invoked (and `set_search_results` would be on a
non-empty merge): the cache-operation trace of this request is not empty. -/
theorem c3_counterexample :
    ({ query := "quantum computing", cursor := some "" } :
        SearchParams).cursor ≠ none ∧
    (search { query := "quantum computing", cursor := some "" }
      { oaGather := .ok (.ok
          { meta_count := none, meta_next_cursor := none, items := [] })
        clGather := .ok (.ok none)
        cache := fun _ => none
        currentYear := 2025 }).2 ≠ [] := by
  constructor
  · simp
  · have hrank : rankedList { query := "quantum computing", cursor := some "" }
        { oaGather := .ok (.ok
            { meta_count := none, meta_next_cursor := none, items := [] })
          clGather := .ok (.ok none)
          cache := fun _ => none
          currentYear := 2025 } = [] := by
      rw [rankedList]
      have hm : mergedArticles { query := "quantum computing", cursor := some "" }
          { oaGather := .ok (.ok
              { meta_count := none, meta_next_cursor := none, items := [] })
            clGather := .ok (.ok none)
            cache := fun _ => none
            currentYear := 2025 } = [] := rfl
      rw [hm, rankResults_nil]
    simp [search, cursorFalsy, hrank,
      show ("" : String).isEmpty = true from rfl]

/-- C3 (amended): for every search request carrying a non-null, non-empty
cursor, the cache read (`get_search_results`) and the cache write
(`set_search_results`) are never invoked during that request: the trace of
cache operations is empty.  (The empty-string cursor is falsy in Python and
takes the cache path, see `c3_counterexample`.) -/
theorem c3_cursor_requests_never_touch_cache (p : SearchParams)
    (env : SearchEnv) (c : String) (h : p.cursor = some c) (hne : c ≠ "") :
    (search p env).2 = [] := by
  have hfalsy : cursorFalsy p.cursor = false := by
    rw [h]
    simp only [cursorFalsy]
    rw [Bool.eq_false_iff]
    intro habs
    exact hne ((String.isEmpty_iff c).mp habs)
  simp [search, hfalsy]

/-- Witness for the amended C3 at a concrete non-empty cursor. -/
theorem c3_cursor_requests_never_touch_cache_witness :
    (search { query := "quantum computing", cursor := some "IlszNzAuNV0i" }
      { oaGather := .ok (.ok
          { meta_count := some 12, meta_next_cursor := none, items := [] })
        clGather := .ok (.ok none)
        cache := fun _ => some
          { total := 3, results := [], next_cursor := none,
            from_cache := false }
        currentYear := 2025 }).2 = [] :=
  c3_cursor_requests_never_touch_cache _ _ "IlszNzAuNV0i" rfl (by decide)

/-! ## C9: empty merged results are never written to the cache -/

/-- C9: for every cursorless (offset-mode) request whose merged result list
is empty, `set_search_results` is never invoked — even when `total > 0` —
so the empty response is never stored in the cache. -/
theorem c9_empty_merge_never_cached (p : SearchParams) (env : SearchEnv)
    (_hcur : p.cursor = none) (hempty : mergedArticles p env = [])
    (k : String) (r : SearchResponse) :
    CacheOp.set k r ∉ (search p env).2 := by
  have hrank : rankedList p env = [] := by
    rw [rankedList, hempty, rankResults_nil]
  cases hcond : (p.use_cache && cursorFalsy p.cursor) with
  | true =>
    cases hcache : env.cache (hashQuery p) with
    | some cached => simp [search, hcond, hcache]
    | none => simp [search, hcond, hcache, hrank]
  | false => simp [search, hcond]

/-- Witness for C9: a request whose only adapter reports `total = 12` but
returns no items; nothing is written to the cache. -/
theorem c9_empty_merge_never_cached_witness :
    CacheOp.set "k"
      { total := 0, results := [], next_cursor := none, from_cache := false } ∉
      (search { query := "quantum computing" }
        { oaGather := .ok (.ok
            { meta_count := some 12, meta_next_cursor := none, items := [] })
          clGather := .ok (.ok none)
          cache := fun _ => none
          currentYear := 2025 }).2 := by
  refine c9_empty_merge_never_cached _ _ rfl ?_ "k" _
  rfl

/-! ## C2: the total is the sum of the invoked adapters' totals -/

/-- C2: for every request that reaches the fan-out (the cache is bypassed —
`use_cache` false or a truthy, i.e. non-null non-empty, cursor — or misses),
the response's `total` is the sum of the per-source totals of the invoked
adapters, an adapter that raised or timed out contributing `0`; and the
merged list is the concatenation of the invoked adapters' item lists, a
failed adapter contributing nothing, without affecting the other's
contribution. -/
theorem c2_total_is_sum_of_sources (p : SearchParams) (env : SearchEnv)
    (h : p.use_cache = false ∨ cursorFalsy p.cursor = false ∨
      env.cache (hashQuery p) = none) :
    (search p env).1.total =
      (if "openalex" ∈ searchSources p then exceptTotal (oaTask p env)
        else 0) +
      (if "cyberleninka" ∈ searchSources p then exceptTotal (clTask p env)
        else 0) ∧
    mergedArticles p env =
      (if "openalex" ∈ searchSources p then exceptArticles (oaTask p env)
        else []) ++
      (if "cyberleninka" ∈ searchSources p then exceptArticles (clTask p env)
        else []) := by
  have htot : mergedTotal p env =
      (if "openalex" ∈ searchSources p then exceptTotal (oaTask p env)
        else 0) +
      (if "cyberleninka" ∈ searchSources p then exceptTotal (clTask p env)
        else 0) := by
    rw [mergedTotal, mergeOutcomes, foldl_mergeStep_total, taskResults]
    by_cases hoa : "openalex" ∈ searchSources p <;>
      by_cases hcl : "cyberleninka" ∈ searchSources p <;>
        simp [hoa, hcl]
  have harts : mergedArticles p env =
      (if "openalex" ∈ searchSources p then exceptArticles (oaTask p env)
        else []) ++
      (if "cyberleninka" ∈ searchSources p then exceptArticles (clTask p env)
        else []) := by
    rw [mergedArticles, mergeOutcomes, foldl_mergeStep_articles, taskResults]
    by_cases hoa : "openalex" ∈ searchSources p <;>
      by_cases hcl : "cyberleninka" ∈ searchSources p <;>
        simp [hoa, hcl]
  refine ⟨?_, harts⟩
  have hfresh : (search p env).1.total = mergedTotal p env := by
    rw [search_response_of_fanout p env h]
    rfl
  rw [hfresh, htot]

/-- Witness for C2: both sources selected, OpenAlex reports `total = 12`
with one work, the CyberLeninka task raised `ConnectError`; the response
total is `12 + 0`. -/
theorem c2_total_is_sum_of_sources_witness :
    (search { query := "quantum computing" }
      { oaGather := .ok (.ok
          { meta_count := some 12, meta_next_cursor := none,
            items := [some
              { id := "https://openalex.org/W1", title := some "Q",
                display_name := some "Quantum",
                publication_year := some 2024,
                abstract_inverted_index := none, cited_by_count := 3,
                open_access := some (some true) }] })
        clGather := .error "ConnectError"
        cache := fun _ => none
        currentYear := 2025 }).1.total = 12 + 0 := by
  rw [(c2_total_is_sum_of_sources _ _ (Or.inr (Or.inr rfl))).1]
  rfl

/-! ## C4: per-source search never raises; failures degrade, bad records skipped -/

/-- C4: `_search_openalex` and `_search_cyberleninka` are total functions of
their call's outcome (the `try/except` wrappers at search_service.py:183-185
and 218-220 catch everything), and

* any exception from the OpenAlex client degrades to
  `{"total": 0, "results": []}`;
* a `next_cursor: null` in `meta` makes `search_works` raise `TypeError`
  (`None[:20]` in the debug f-string, openalex.py:366), which likewise
  degrades the page to `{"total": 0, "results": []}`;
* a work that fails pydantic validation is skipped without affecting the rest
  of the page (openalex.py:349-355);
* on the successful paths (no `next_cursor` key in `meta`, or a string-valued
  one) the returned items are exactly the well-parsed works;
* any exception from the CyberLeninka client degrades to
  `{"total": 0, "results": []}`;
* a `None` reply of the CyberLeninka `_request` (timeout/HTTP/OAI/XML failure
  after retries) degrades to `{"total": 0, "results": []}`;
* a record that `_parse_record` rejects is skipped without affecting the rest
  of the page (cyberleninka.py:233-235). -/
theorem c4_adapters_degrade_and_skip :
    (∀ e : String,
      searchOpenalex (.error e) = { total := 0, results := [], next_cursor := none }) ∧
    (∀ raw : OARawResponse,
      searchOpenalex (.ok { raw with meta_next_cursor := some none }) =
        { total := 0, results := [], next_cursor := none }) ∧
    (∀ raw : OARawResponse,
      searchOpenalex (.ok { raw with items := none :: raw.items }) =
        searchOpenalex (.ok raw)) ∧
    (∀ raw : OARawResponse,
      (searchOpenalex (.ok { raw with meta_next_cursor := none })).results =
        (raw.items.filterMap id).map
          (fun w => { workToArticleDict w with relevance_score := some (9/10) })) ∧
    (∀ (raw : OARawResponse) (cur : String),
      (searchOpenalex (.ok { raw with meta_next_cursor := some (some cur) })).results =
        (raw.items.filterMap id).map
          (fun w => { workToArticleDict w with relevance_score := some (9/10) })) ∧
    (∀ (q : String) (lim : ℤ) (e : String),
      searchCyberleninka q lim (.error e) =
        { total := 0, results := [], next_cursor := none }) ∧
    (∀ (q : String) (lim : ℤ),
      searchCyberleninka q lim (.ok none) =
        { total := 0, results := [], next_cursor := none }) ∧
    (∀ (q : String) (lim : ℤ) (recs : List (Option CLArticle)),
      searchCyberleninka q lim (.ok (some (none :: recs))) =
        searchCyberleninka q lim (.ok (some recs))) := by
  refine ⟨fun e => rfl, fun raw => rfl, fun raw => ?_, fun raw => rfl,
    fun raw cur => rfl, fun q lim e => rfl, fun q lim => rfl,
    fun q lim recs => ?_⟩
  · rcases hnc : raw.meta_next_cursor with _ | (_ | cur) <;>
      simp [searchOpenalex, searchWorks, hnc]
  · simp [searchCyberleninka, clSearch, clCollect]

/-! ## C6: CyberLeninka client-side filtering is take-limit-of-filter -/

/-- The harvesting loop, with a partially filled `articles` accumulator still
below `limit`, returns the accumulator followed by the next
`limit - len(acc)` parse-surviving matches in harvest order. -/
theorem clCollect_eq_take_filter (ql : List Char) (limit : ℤ) :
    ∀ (records : List (Option CLArticle)) (acc : List CLArticle),
      (acc.length : ℤ) < limit →
      clCollect ql limit acc records =
        acc ++ ((records.filterMap id).filter
          (fun a => isSub ql (clSearchable a))).take (limit - acc.length).toNat := by
  intro records
  induction records with
  | nil => intro acc _; simp [clCollect]
  | cons r rest ih =>
    intro acc hacc
    cases r with
    | none => simpa [clCollect] using ih acc hacc
    | some a =>
      by_cases hmatch : isSub ql (clSearchable a) = true
      · by_cases hstop : limit ≤ ((acc ++ [a]).length : ℤ)
        · have hone : (limit - acc.length).toNat = 1 := by
            simp only [List.length_append, List.length_cons,
              List.length_nil] at hstop
            omega
          have hstop' : limit ≤ (acc.length : ℤ) + 1 := by
            simpa using hstop
          have hcl : clCollect ql limit acc (some a :: rest) = acc ++ [a] := by
            simp [clCollect, hmatch, hstop']
          rw [hcl, hone]
          simp [hmatch]
        · push_neg at hstop
          have ih' := ih (acc ++ [a]) hstop
          have hsucc : (limit - acc.length).toNat =
              (limit - ((acc ++ [a]).length : ℤ)).toNat + 1 := by
            simp only [List.length_append, List.length_cons, List.length_nil]
            omega
          have hstop' : ¬ limit ≤ (acc.length : ℤ) + 1 := by
            rw [not_le]
            simpa using hstop
          have hcl : clCollect ql limit acc (some a :: rest) =
              clCollect ql limit (acc ++ [a]) rest := by
            simp [clCollect, hmatch, hstop']
          rw [hcl, ih', hsucc]
          simp [hmatch, List.take_succ_cons]
      · have hmatch' : isSub ql (clSearchable a) = false := by
          simpa using hmatch
        have hcl : clCollect ql limit acc (some a :: rest) =
            clCollect ql limit acc rest := by
          simp [clCollect, hmatch']
        rw [hcl, ih acc hacc]
        simp [hmatch']

/-- C6: for every query and harvested record list (and any positive `limit`,
the API layer enforces `limit ≥ 1`), `CyberLeninkaClient.search`'s loop
selects exactly the records whose concatenated lowercased searchable text
contains the lowercased query, in harvest order, truncated to the first
`limit` matches — so the result list never exceeds `limit` items. -/
theorem c6_cl_search_is_take_limit_of_filter (query : String) (limit : ℤ)
    (hlim : 1 ≤ limit) (records : List (Option CLArticle)) :
    (clSearch query limit (some records)).results =
      ((records.filterMap id).filter (clMatches query)).take limit.toNat ∧
    ((clSearch query limit (some records)).results.length : ℤ) ≤ limit := by
  have h := clCollect_eq_take_filter (lowerChars query) limit records []
    (by simpa using hlim)
  have hres : (clSearch query limit (some records)).results =
      ((records.filterMap id).filter (clMatches query)).take limit.toNat := by
    simp only [clSearch, h, List.nil_append, List.length_nil,
      Nat.cast_zero, sub_zero]
    rfl
  refine ⟨hres, ?_⟩
  rw [hres]
  have : (((records.filterMap id).filter (clMatches query)).take
      limit.toNat).length ≤ limit.toNat := by
    exact List.length_take_le limit.toNat _
  omega

/-- Witness for C6: four harvested records — one unparsable, two matching,
one not — with `limit = 1`: only the first match is returned. -/
theorem c6_cl_search_is_take_limit_of_filter_witness :
    (clSearch "энергия" 1 (some
      [none,
       some { identifier := "oai:cyberleninka.ru:1", title := some "Энергия утра",
              creators := [], subjects := [], description := none,
              date := some "2021", language := some "ru" },
       some { identifier := "oai:cyberleninka.ru:2", title := some "Другое",
              creators := [], subjects := [], description := none,
              date := none, language := none },
       some { identifier := "oai:cyberleninka.ru:3", title := some "энергия",
              creators := [], subjects := [], description := none,
              date := none, language := none }])).results.length = 1 := by
  have h := c6_cl_search_is_take_limit_of_filter "энергия" 1 (by norm_num)
    [none,
     some { identifier := "oai:cyberleninka.ru:1", title := some "Энергия утра",
            creators := [], subjects := [], description := none,
            date := some "2021", language := some "ru" },
     some { identifier := "oai:cyberleninka.ru:2", title := some "Другое",
            creators := [], subjects := [], description := none,
            date := none, language := none },
     some { identifier := "oai:cyberleninka.ru:3", title := some "энергия",
            creators := [], subjects := [], description := none,
            date := none, language := none }]
  rw [h.1]
  rfl

/-! ## C8: the total is at least the number of returned items -/

/-- If every gathered outcome reports at least as many items as its total,
so does the concatenation against the sum. -/
theorem length_flatMap_le_sum_total (outs : List (Except String PartialResult))
    (h : ∀ t ∈ outs, ((exceptArticles t).length : ℤ) ≤ exceptTotal t) :
    ((outs.flatMap exceptArticles).length : ℤ) ≤ (outs.map exceptTotal).sum := by
  induction outs with
  | nil => simp
  | cons t rest ih =>
    have h1 := h t (List.mem_cons_self t rest)
    have h2 := ih (fun x hx => h x (List.mem_cons_of_mem t hx))
    simp only [List.flatMap_cons, List.map_cons, List.sum_cons,
      List.length_append]
    push_cast
    omega

/-- C8: for every response assembled on the fan-out path, if the OpenAlex
provider reports a `meta.count` at least as large as the page of works it
returns (the CyberLeninka adapter satisfies the analogous bound by
construction, its total being `len(articles)`), then `total` is at least the
number of items in the `[:limit]`-truncated result list. -/
theorem c8_total_ge_items_returned (p : SearchParams) (env : SearchEnv)
    (hpath : p.use_cache = false ∨ cursorFalsy p.cursor = false ∨
      env.cache (hashQuery p) = none)
    (hoa : ∀ raw : OARawResponse, env.oaGather = .ok (.ok raw) →
      ((raw.items.filterMap id).length : ℤ) ≤ raw.meta_count.getD 0) :
    ((search p env).1.results.length : ℤ) ≤ (search p env).1.total := by
  rw [search_response_of_fanout p env hpath]
  have hlen1 : (freshResponse p env).results.length ≤
      (mergedArticles p env).length := by
    simp only [freshResponse]
    have : ((rankedList p env).take p.limit).length ≤
        (rankedList p env).length := by
      simp [List.length_take]
    rw [rankedList, length_rankResults] at this
    exact this
  have hle : ((mergedArticles p env).length : ℤ) ≤ mergedTotal p env := by
    rw [mergedArticles, mergedTotal, mergeOutcomes, foldl_mergeStep_articles,
      foldl_mergeStep_total]
    simp only [List.nil_append, zero_add]
    apply length_flatMap_le_sum_total
    intro t ht
    rcases List.mem_append.mp ht with h1 | h1
    · have hteq : t = oaTask p env := by
        by_cases hmem : "openalex" ∈ searchSources p
        · simpa [hmem] using h1
        · simp [hmem] at h1
      subst hteq
      cases hg : env.oaGather with
      | error e => simp [oaTask, hg, exceptArticles, exceptTotal, Except.map]
      | ok inner =>
        cases inner with
        | error e =>
          simp [oaTask, hg, exceptArticles, exceptTotal, searchOpenalex,
            searchWorks, Except.map]
        | ok raw =>
          have hcount := hoa raw (by rw [hg])
          rcases hnc : raw.meta_next_cursor with _ | nc
          · simpa [oaTask, hg, exceptArticles, exceptTotal, searchOpenalex,
              searchWorks, Except.map, hnc] using hcount
          · cases nc with
            | none =>
              simp [oaTask, hg, exceptArticles, exceptTotal, searchOpenalex,
                searchWorks, Except.map, hnc]
            | some cur =>
              simpa [oaTask, hg, exceptArticles, exceptTotal, searchOpenalex,
                searchWorks, Except.map, hnc] using hcount
    · have hteq : t = clTask p env := by
        by_cases hmem : "cyberleninka" ∈ searchSources p
        · simpa [hmem] using h1
        · simp [hmem] at h1
      subst hteq
      cases hg : env.clGather with
      | error e => simp [clTask, hg, exceptArticles, exceptTotal, Except.map]
      | ok inner =>
        cases inner with
        | error e =>
          simp [clTask, hg, exceptArticles, exceptTotal, searchCyberleninka,
            Except.map]
        | ok raw =>
          cases raw with
          | none =>
            simp [clTask, hg, exceptArticles, exceptTotal, searchCyberleninka,
              clSearch, Except.map]
          | some recs =>
            simp [clTask, hg, exceptArticles, exceptTotal, searchCyberleninka,
              clSearch, Except.map]
  calc ((freshResponse p env).results.length : ℤ)
      ≤ ((mergedArticles p env).length : ℤ) := by exact_mod_cast hlen1
    _ ≤ mergedTotal p env := hle
    _ = (freshResponse p env).total := rfl

/-- Witness for C8: OpenAlex honestly reports 12 total matches for its page
of one work; the CyberLeninka task failed. -/
theorem c8_total_ge_items_returned_witness :
    ((search { query := "quantum computing" }
        { oaGather := .ok (.ok
            { meta_count := some 12, meta_next_cursor := none,
              items := [some
                { id := "https://openalex.org/W1", title := some "Q",
                  display_name := some "Quantum",
                  publication_year := some 2024,
                  abstract_inverted_index := none, cited_by_count := 3,
                  open_access := some (some true) }] })
          clGather := .error "ConnectError"
          cache := fun _ => none
          currentYear := 2025 }).1.results.length : ℤ) ≤
    (search { query := "quantum computing" }
      { oaGather := .ok (.ok
          { meta_count := some 12, meta_next_cursor := none,
            items := [some
              { id := "https://openalex.org/W1", title := some "Q",
                display_name := some "Quantum",
                publication_year := some 2024,
                abstract_inverted_index := none, cited_by_count := 3,
                open_access := some (some true) }] })
        clGather := .error "ConnectError"
        cache := fun _ => none
        currentYear := 2025 }).1.total := by
  refine c8_total_ge_items_returned _ _ (Or.inr (Or.inr rfl)) ?_
  intro raw hraw
  cases hraw
  decide

/-! ## C5: citation score is monotone in the candidate's own citation count -/

/-- `foldl max` pulls a `max` out of its seed. -/
theorem foldl_max_comm (xs : List ℤ) :
    ∀ x c : ℤ, xs.foldl max (max x c) = max c (xs.foldl max x) := by
  induction xs with
  | nil => intro x c; simp [max_comm]
  | cons y ys ih =>
    intro x c
    simp only [List.foldl_cons]
    rw [sup_right_comm x c y, ih]

/-- The citation signal is never negative. -/
theorem normalizeCitations_nonneg (c M : ℤ) : 0 ≤ normalizeCitations c M := by
  simp only [normalizeCitations]
  split_ifs with hpos hlog
  · exact le_refl 0
  · push_neg at hpos
    apply div_nonneg _ (le_of_lt hlog)
    apply Real.log_nonneg
    have : (1 : ℝ) ≤ (c : ℝ) := by exact_mod_cast hpos
    linarith
  · exact le_refl 0

/-- The citation signal never exceeds `1` when the candidate's count is at
most the normalisation maximum. -/
theorem normalizeCitations_le_one (c M : ℤ) (h : c ≤ M) :
    normalizeCitations c M ≤ 1 := by
  simp only [normalizeCitations]
  split_ifs with hpos hlog
  · exact zero_le_one
  · push_neg at hpos
    rw [div_le_one hlog]
    apply Real.log_le_log
    · have : (1 : ℝ) ≤ (c : ℝ) := by exact_mod_cast hpos
      linarith
    · have : (c : ℝ) ≤ (M : ℝ) := by exact_mod_cast h
      linarith
  · exact zero_le_one

/-- A positively cited candidate that is itself the batch maximum scores
exactly `1`. -/
theorem normalizeCitations_self (c : ℤ) (hc : 0 < c) :
    normalizeCitations c c = 1 := by
  have hlog : 0 < Real.log (1 + (c : ℝ)) := by
    apply Real.log_pos
    have : (1 : ℝ) ≤ (c : ℝ) := by exact_mod_cast hc
    linarith
  simp only [normalizeCitations]
  rw [if_neg (not_le.mpr hc), if_pos hlog]
  exact div_self (ne_of_gt hlog)

/-- Monotonicity of the citation signal through the `max(...) or 1`
normalisation, for a batch whose other members' maximal count is `Q`. -/
theorem normalizeCitations_batch_mono_aux (Q c₁ c₂ : ℤ) (hc : c₁ ≤ c₂) :
    normalizeCitations c₁ (if max c₁ Q = 0 then 1 else max c₁ Q) ≤
    normalizeCitations c₂ (if max c₂ Q = 0 then 1 else max c₂ Q) := by
  by_cases h1 : c₁ ≤ 0
  · have hz : normalizeCitations c₁
        (if max c₁ Q = 0 then 1 else max c₁ Q) = 0 := by
      simp [normalizeCitations, h1]
    rw [hz]
    exact normalizeCitations_nonneg _ _
  · push_neg at h1
    have h2 : (0 : ℤ) < c₂ := lt_of_lt_of_le h1 hc
    have hm₁ : max c₁ Q ≠ 0 := ne_of_gt (lt_of_lt_of_le h1 (le_max_left _ _))
    have hm₂ : max c₂ Q ≠ 0 := ne_of_gt (lt_of_lt_of_le h2 (le_max_left _ _))
    rw [if_neg hm₁, if_neg hm₂]
    rcases le_total c₂ Q with hq | hq
    · have e1 : max c₁ Q = Q := max_eq_right (hc.trans hq)
      have e2 : max c₂ Q = Q := max_eq_right hq
      rw [e1, e2]
      have hQ : (0 : ℤ) < Q := lt_of_lt_of_le h1 (hc.trans hq)
      have hlog : 0 < Real.log (1 + (Q : ℝ)) := by
        apply Real.log_pos
        have : (1 : ℝ) ≤ (Q : ℝ) := by exact_mod_cast hQ
        linarith
      simp only [normalizeCitations]
      rw [if_neg (not_le.mpr h1), if_neg (not_le.mpr h2), if_pos hlog,
        if_pos hlog]
      rw [div_le_div_iff_of_pos_right hlog]
      apply Real.log_le_log
      · have : (1 : ℝ) ≤ (c₁ : ℝ) := by exact_mod_cast h1
        linarith
      · have : (c₁ : ℝ) ≤ (c₂ : ℝ) := by exact_mod_cast hc
        linarith
    · have e2 : max c₂ Q = c₂ := max_eq_left hq
      rw [e2, normalizeCitations_self c₂ h2]
      exact normalizeCitations_le_one c₁ (max c₁ Q) (le_max_left _ _)

/-- Monotonicity of the citation signal for a one-candidate batch (the
candidate is its own maximum). -/
theorem normalizeCitations_self_mono (c₁ c₂ : ℤ) (hc : c₁ ≤ c₂) :
    normalizeCitations c₁ (if c₁ = 0 then 1 else c₁) ≤
    normalizeCitations c₂ (if c₂ = 0 then 1 else c₂) := by
  by_cases h1 : c₁ ≤ 0
  · have hz : normalizeCitations c₁ (if c₁ = 0 then 1 else c₁) = 0 := by
      simp [normalizeCitations, h1]
    rw [hz]
    exact normalizeCitations_nonneg _ _
  · push_neg at h1
    have h2 : (0 : ℤ) < c₂ := lt_of_lt_of_le h1 hc
    rw [if_neg (ne_of_gt h1), if_neg (ne_of_gt h2),
      normalizeCitations_self c₁ h1, normalizeCitations_self c₂ h2]

/-- `_normalize_citations(count, max_citations)` against the batch maximum
`max(...) or 1` of ranking_service.py:58 is monotone in the candidate's own
count, the other batch members held fixed. -/
theorem normalizeCitations_batchMax_mono (pre post : List Article)
    (a : Article) (c₁ c₂ : ℤ) (hc : c₁ ≤ c₂) :
    normalizeCitations c₁
      (maxCitationsOf (pre ++ { a with cited_by_count := c₁ } :: post)) ≤
    normalizeCitations c₂
      (maxCitationsOf (pre ++ { a with cited_by_count := c₂ } :: post)) := by
  cases pre with
  | nil =>
    cases hpost : post.map (fun r => r.cited_by_count) with
    | nil =>
      have hpost' : post = [] := List.map_eq_nil_iff.mp hpost
      subst hpost'
      simpa [maxCitationsOf] using normalizeCitations_self_mono c₁ c₂ hc
    | cons q qs =>
      have hm : ∀ c : ℤ,
          maxCitationsOf ({ a with cited_by_count := c } :: post) =
          (if max c (qs.foldl max q) = 0 then 1
            else max c (qs.foldl max q)) := by
        intro c
        simp only [maxCitationsOf, List.map_cons, hpost, List.foldl_cons]
        rw [max_comm c q, foldl_max_comm]
      rw [List.nil_append, List.nil_append, hm c₁, hm c₂]
      exact normalizeCitations_batch_mono_aux _ _ _ hc
  | cons p pre' =>
    have hm : ∀ c : ℤ,
        maxCitationsOf ((p :: pre') ++ { a with cited_by_count := c } :: post) =
        (if max c ((post.map (fun r => r.cited_by_count)).foldl max
            ((pre'.map (fun r => r.cited_by_count)).foldl max
              p.cited_by_count)) = 0 then 1
          else max c ((post.map (fun r => r.cited_by_count)).foldl max
            ((pre'.map (fun r => r.cited_by_count)).foldl max
              p.cited_by_count))) := by
      intro c
      simp only [maxCitationsOf, List.cons_append, List.map_cons,
        List.map_append, List.foldl_append, List.foldl_cons]
      rw [foldl_max_comm]
    rw [hm c₁, hm c₂]
    exact normalizeCitations_batch_mono_aux _ _ _ hc

/-- C5: holding all other signals and all other candidates' citation counts
fixed, for every candidate in a ranking batch, increasing that candidate's
`cited_by_count` never decreases the `citation_score` entry of the signal
breakdown `rank_results` computes and stores for it
(ranking_service.py:58,76-78): `log1p(count)/log1p(max_citations_in_batch)`,
`0` when the count is non-positive. -/
theorem c5_citation_score_monotone (pre post : List Article) (a : Article)
    (query preferredLang : String) (currentYear : ℤ) (c₁ c₂ : ℤ)
    (hc : c₁ ≤ c₂) :
    (scoreSignals query preferredLang
        (maxCitationsOf (pre ++ { a with cited_by_count := c₁ } :: post))
        currentYear { a with cited_by_count := c₁ }).citation_score ≤
    (scoreSignals query preferredLang
        (maxCitationsOf (pre ++ { a with cited_by_count := c₂ } :: post))
        currentYear { a with cited_by_count := c₂ }).citation_score :=
  normalizeCitations_batchMax_mono pre post a c₁ c₂ hc

/-- Witness for C5: raising the candidate's count from 0 to 5 in a batch
whose other member has 7 citations. -/
theorem c5_citation_score_monotone_witness :
    (scoreSignals "quantum" "en"
        (maxCitationsOf ([] ++ { (default : Article) with cited_by_count := 0 } ::
          [{ (default : Article) with cited_by_count := 7 }]))
        2025 { (default : Article) with cited_by_count := 0 }).citation_score ≤
    (scoreSignals "quantum" "en"
        (maxCitationsOf ([] ++ { (default : Article) with cited_by_count := 5 } ::
          [{ (default : Article) with cited_by_count := 7 }]))
        2025 { (default : Article) with cited_by_count := 5 }).citation_score :=
  c5_citation_score_monotone [] [{ (default : Article) with cited_by_count := 7 }]
    default "quantum" "en" 2025 0 5 (by norm_num)

/-! ## C1: relevance score bounds and consistency with the stored breakdown -/

/-- The keyword-match signal always lies in `[0, 1]`. -/
theorem computeKeywordMatch_mem (query title : String)
    (abstract : Option String) :
    0 ≤ computeKeywordMatch query title abstract ∧
      computeKeywordMatch query title abstract ≤ 1 := by
  simp only [computeKeywordMatch]
  split_ifs with h
  · norm_num
  · refine ⟨le_min (by positivity) zero_le_one, min_le_right _ 1⟩

/-- The recency signal always lies in `[0, 1]`. -/
theorem computeRecency_mem (year : Option ℤ) (currentYear : ℤ) :
    0 ≤ computeRecency year currentYear ∧
      computeRecency year currentYear ≤ 1 := by
  cases year with
  | none => norm_num [computeRecency]
  | some y =>
    simp only [computeRecency]
    split_ifs with h0 h1 h2 h3 h4 h5
    · norm_num
    · norm_num
    · norm_num
    · norm_num
    · norm_num
    · norm_num
    · constructor
      · exact le_trans (by norm_num) (le_max_left _ _)
      · apply max_le (by norm_num)
        have hage : (10 : ℚ) < ((currentYear - y : ℤ) : ℚ) := by
          exact_mod_cast lt_of_not_le h5
        push_cast at hage ⊢
        linarith

/-- The source-quality signal always lies in `[0, 1]`. -/
theorem sourceQualityScore_mem (source : String) :
    0 ≤ sourceQualityScore source ∧ sourceQualityScore source ≤ 1 := by
  simp only [sourceQualityScore]
  split_ifs <;> norm_num

/-- The seed of a `foldl max` is a lower bound of the fold. -/
theorem le_foldl_max_seed (xs : List ℤ) : ∀ x : ℤ, x ≤ xs.foldl max x := by
  induction xs with
  | nil => intro x; simp
  | cons y ys ih =>
    intro x
    simp only [List.foldl_cons]
    exact le_trans (le_max_left x y) (ih (max x y))

/-- Every member of the list is a lower bound of a `foldl max` over it. -/
theorem le_foldl_max_of_mem (xs : List ℤ) :
    ∀ (x b : ℤ), b ∈ xs → b ≤ xs.foldl max x := by
  induction xs with
  | nil => intro x b h; cases h
  | cons y ys ih =>
    intro x b h
    rcases List.mem_cons.mp h with rfl | h'
    · exact le_trans (le_max_right x b) (le_foldl_max_seed ys (max x b))
    · exact ih (max x y) b h'

/-- Every batch member's citation count is at most the batch normalisation
maximum `max(...) or 1`. -/
theorem cited_le_maxCitationsOf (results : List Article) (a : Article)
    (ha : a ∈ results) : a.cited_by_count ≤ maxCitationsOf results := by
  cases results with
  | nil => cases ha
  | cons r rs =>
    simp only [maxCitationsOf, List.map_cons]
    have hle : a.cited_by_count ≤
        (rs.map (fun r => r.cited_by_count)).foldl max r.cited_by_count := by
      rcases List.mem_cons.mp ha with rfl | h'
      · exact le_foldl_max_seed _ _
      · exact le_foldl_max_of_mem _ _ _ (List.mem_map_of_mem _ h')
    split_ifs with h0
    · rw [h0] at hle
      exact le_trans hle one_pos.le
    · exact hle

/-- Rounding to 4 decimals keeps a value of `[0, 1]` inside `[0, 1]`. -/
theorem round4_mem (x : ℝ) (h0 : 0 ≤ x) (h1 : x ≤ 1) :
    0 ≤ round4 x ∧ round4 x ≤ 1 := by
  unfold round4
  constructor
  · apply div_nonneg _ (by norm_num)
    have : (0 : ℤ) ≤ round (x * 10000) := by
      rw [round_eq]
      apply Int.le_floor.mpr
      push_cast
      linarith
    exact_mod_cast this
  · rw [div_le_one (by norm_num : (0 : ℝ) < 10000)]
    have : round (x * 10000) ≤ (10000 : ℤ) := by
      rw [round_eq]
      have hlt : ⌊x * 10000 + 1 / 2⌋ < (10001 : ℤ) := by
        apply Int.floor_lt.mpr
        push_cast
        linarith
      omega
    exact_mod_cast this

/-- The weighted sum of seven signals that each lie in `[0, 1]`, with the
`WEIGHTS` table summing to `1`, lies in `[0, 1]`. -/
theorem weightedSum_mem (s : RankingSignals)
    (h1 : 0 ≤ s.semantic_similarity ∧ s.semantic_similarity ≤ 1)
    (h2 : 0 ≤ s.keyword_match ∧ s.keyword_match ≤ 1)
    (h3 : 0 ≤ s.citation_score ∧ s.citation_score ≤ 1)
    (h4 : 0 ≤ s.recency_score ∧ s.recency_score ≤ 1)
    (h5 : 0 ≤ s.open_access ∧ s.open_access ≤ 1)
    (h6 : 0 ≤ s.source_quality ∧ s.source_quality ≤ 1)
    (h7 : 0 ≤ s.language_match ∧ s.language_match ≤ 1) :
    0 ≤ weightedSum s ∧ weightedSum s ≤ 1 := by
  unfold weightedSum
  constructor
  · have t1 := mul_nonneg h1.1 (by norm_num : (0:ℝ) ≤ 35/100)
    have t2 := mul_nonneg h2.1 (by norm_num : (0:ℝ) ≤ 20/100)
    have t3 := mul_nonneg h3.1 (by norm_num : (0:ℝ) ≤ 15/100)
    have t4 := mul_nonneg h4.1 (by norm_num : (0:ℝ) ≤ 10/100)
    have t5 := mul_nonneg h5.1 (by norm_num : (0:ℝ) ≤ 5/100)
    have t6 := mul_nonneg h6.1 (by norm_num : (0:ℝ) ≤ 10/100)
    have t7 := mul_nonneg h7.1 (by norm_num : (0:ℝ) ≤ 5/100)
    linarith
  · have t1 := mul_le_of_le_one_left (by norm_num : (0:ℝ) ≤ 35/100) h1.2
    have t2 := mul_le_of_le_one_left (by norm_num : (0:ℝ) ≤ 20/100) h2.2
    have t3 := mul_le_of_le_one_left (by norm_num : (0:ℝ) ≤ 15/100) h3.2
    have t4 := mul_le_of_le_one_left (by norm_num : (0:ℝ) ≤ 10/100) h4.2
    have t5 := mul_le_of_le_one_left (by norm_num : (0:ℝ) ≤ 5/100) h5.2
    have t6 := mul_le_of_le_one_left (by norm_num : (0:ℝ) ≤ 10/100) h6.2
    have t7 := mul_le_of_le_one_left (by norm_num : (0:ℝ) ≤ 5/100) h7.2
    linarith

/-- `rank_results` of a non-empty batch is non-empty. -/
theorem rankResults_ne_nil (results : List Article) (query lang : String)
    (currentYear : ℤ) (h : results ≠ []) :
    rankResults results query lang currentYear ≠ [] := by
  intro hnil
  have hlen := length_rankResults results query lang currentYear
  rw [hnil] at hlen
  exact h (List.length_eq_zero.mp hlen.symm)

/-- C1: for every candidate ranked by `rank_results` — given that the
source-assigned priors feeding the semantic-similarity fallback lie in
`[0, 1]`, as the two adapters' `0.9` / `0.8` priors do — the stored
`relevance_score` lies in `[0, 1]` and equals the `WEIGHTS`-weighted sum of
that candidate's own stored `ranking_signals` breakdown, rounded to 4 decimal
places. -/
theorem c1_relevance_score_bounds_and_breakdown (results : List Article)
    (query preferredLang : String) (currentYear : ℤ)
    (hprior : ∀ a ∈ results, 0 ≤ a.relevance_score.getD (1/2) ∧
      a.relevance_score.getD (1/2) ≤ 1) :
    ∀ c ∈ rankResults results query preferredLang currentYear,
      (0 ≤ c.relevance_score ∧ c.relevance_score ≤ 1) ∧
      c.relevance_score = round4 (weightedSum c.ranking_signals) := by
  intro c hc
  unfold rankResults at hc
  cases hres : results.isEmpty with
  | true => rw [hres] at hc; simp at hc
  | false =>
    rw [hres] at hc
    simp only [Bool.false_eq_true, if_false, List.mem_mergeSort] at hc
    obtain ⟨a, ha, rfl⟩ := List.mem_map.mp hc
    refine ⟨?_, rfl⟩
    have hsem : 0 ≤ (((a.relevance_score.getD (1/2) : ℚ)) : ℝ) ∧
        (((a.relevance_score.getD (1/2) : ℚ)) : ℝ) ≤ 1 := by
      obtain ⟨hl, hr⟩ := hprior a ha
      constructor
      · exact_mod_cast hl
      · exact_mod_cast hr
    have hkw := computeKeywordMatch_mem query a.title a.abstract
    have hkw' : (0 : ℝ) ≤ ((computeKeywordMatch query a.title a.abstract : ℚ) : ℝ) ∧
        ((computeKeywordMatch query a.title a.abstract : ℚ) : ℝ) ≤ 1 := by
      constructor
      · exact_mod_cast hkw.1
      · exact_mod_cast hkw.2
    have hcit : 0 ≤ normalizeCitations a.cited_by_count
          (maxCitationsOf results) ∧
        normalizeCitations a.cited_by_count (maxCitationsOf results) ≤ 1 :=
      ⟨normalizeCitations_nonneg _ _,
       normalizeCitations_le_one _ _ (cited_le_maxCitationsOf results a ha)⟩
    have hrec := computeRecency_mem a.year currentYear
    have hrec' : (0 : ℝ) ≤ ((computeRecency a.year currentYear : ℚ) : ℝ) ∧
        ((computeRecency a.year currentYear : ℚ) : ℝ) ≤ 1 := by
      constructor
      · exact_mod_cast hrec.1
      · exact_mod_cast hrec.2
    have hoa : (0 : ℝ) ≤ (if a.open_access then (1 : ℝ) else 0) ∧
        (if a.open_access then (1 : ℝ) else 0) ≤ 1 := by
      split_ifs <;> norm_num
    have hsq := sourceQualityScore_mem a.source
    have hsq' : (0 : ℝ) ≤ ((sourceQualityScore a.source : ℚ) : ℝ) ∧
        ((sourceQualityScore a.source : ℚ) : ℝ) ≤ 1 := by
      constructor
      · exact_mod_cast hsq.1
      · exact_mod_cast hsq.2
    have hlm : (0 : ℝ) ≤
        (if a.language = preferredLang then (1 : ℝ) else 1/2) ∧
        (if a.language = preferredLang then (1 : ℝ) else 1/2) ≤ 1 := by
      split_ifs <;> norm_num
    have hws := weightedSum_mem
      (scoreSignals query preferredLang (maxCitationsOf results) currentYear a)
      hsem hkw' hcit hrec' hoa hsq' hlm
    exact round4_mem _ hws.1 hws.2

/-- Witness for C1: the head of a ranked one-candidate batch with the OpenAlex
source prior. -/
theorem c1_relevance_score_bounds_and_breakdown_witness :
    (0 ≤ ((rankResults
        [{ source := "openalex", external_id := "W1", title := "Quantum",
           abstract := none, year := some 2024, cited_by_count := 3,
           open_access := true, language := "en",
           relevance_score := some (9/10) }] "quantum" "en" 2025).head!).relevance_score ∧
      ((rankResults
        [{ source := "openalex", external_id := "W1", title := "Quantum",
           abstract := none, year := some 2024, cited_by_count := 3,
           open_access := true, language := "en",
           relevance_score := some (9/10) }] "quantum" "en" 2025).head!).relevance_score ≤ 1) ∧
    ((rankResults
        [{ source := "openalex", external_id := "W1", title := "Quantum",
           abstract := none, year := some 2024, cited_by_count := 3,
           open_access := true, language := "en",
           relevance_score := some (9/10) }] "quantum" "en" 2025).head!).relevance_score =
      round4 (weightedSum ((rankResults
        [{ source := "openalex", external_id := "W1", title := "Quantum",
           abstract := none, year := some 2024, cited_by_count := 3,
           open_access := true, language := "en",
           relevance_score := some (9/10) }] "quantum" "en" 2025).head!).ranking_signals) := by
  refine c1_relevance_score_bounds_and_breakdown _ "quantum" "en" 2025 ?_ _
    (List.head!_mem_self (rankResults_ne_nil _ "quantum" "en" 2025 ?_))
  · intro a ha
    rw [List.mem_singleton] at ha
    subst ha
    norm_num
  · simp
